import Mathlib

/-!
# Verification of `ugly.net`: ephemeral test server and readiness pollers

This file embeds the networking core of the `inelegant` repository
(`ugly/net/net.py`: `Server`, `ServerHandler`) together with the
`SocketServer.TCPServer` framework behaviour it inherits, and proves the
specified properties about it.  `wait_server_up`, `wait_server_down` and
`get_socket` are exported by `ugly.net` but their defining module is not in
the source tree (only `ugly/net/test.py` imports them), so the poller is
modelled from the specification, as marked on each such definition.

Conventions: byte strings are `List Nat` (Python 2 `str` is a byte string),
wall-clock durations are `ℚ` in seconds.
-/

namespace UglyNet

/-- The bytes of a Python 2 byte string literal. -/
def strBytes (s : String) : List Nat := s.data.map Char.toNat

/-- An operation performed by the server on one accepted connection socket. -/
inductive ConnOp where
  | send (data : List Nat)
  | recv (n : Nat)
  | close
  deriving DecidableEq

/-- Embeds `ServerHandler.handle` (net.py line 74):
`self.request.sendall(self.server.message + '\0')` — a single `sendall` of the
configured message concatenated with one NUL byte. -/
def handle (message : String) : List ConnOp :=
  [ConnOp.send (strBytes message ++ [0])]

/-- Embeds `SocketServer.TCPServer` per-connection processing: `process_request`
runs `finish_request` (which instantiates `ServerHandler` and calls its
`handle`) and then `shutdown_request`, which closes the connection socket. -/
def connTrace (message : String) : List ConnOp :=
  handle message ++ [ConnOp.close]

/-- The bytes written to a connection: concatenation of all `send` payloads. -/
def bytesWritten : List ConnOp → List Nat
  | [] => []
  | ConnOp.send d :: ops => d ++ bytesWritten ops
  | _ :: ops => bytesWritten ops

/-- `true` iff the trace performs no `recv` at all. -/
def readsNothing (ops : List ConnOp) : Bool :=
  ops.all fun op => match op with
    | ConnOp.recv _ => false
    | _ => true

/-- Server lifecycle state (spec §3): `Bound → Serving → Stopped`. -/
inductive SState where
  | bound
  | serving
  | stopped
  deriving DecidableEq

/-- The attribute record built by `Server.__init__` (net.py lines 48–51):
`self.address`, `self.port`, `self.message`, `self.timeout`.  After
`TCPServer.__init__` returns, the listening socket is bound. -/
structure Server where
  address : String
  port : Nat
  message : String
  timeout : ℚ
  state : SState
  deriving DecidableEq

/-- Error raised by `socket.bind` when the (address, port) pair is occupied. -/
inductive BindError where
  | addressInUse
  deriving DecidableEq

/-- The set of (address, port) pairs currently bound by a listening socket. -/
abbrev Registry := List (String × Nat)

/-- Embeds `SocketServer.TCPServer.server_bind` → `socket.bind`
(called once from `TCPServer.__init__`; `Server` does not set
`allow_reuse_address`): binding an occupied pair raises `EADDRINUSE`,
otherwise the pair is registered. -/
def server_bind (reg : Registry) (address : String) (port : Nat) :
    Except BindError Registry :=
  if (address, port) ∈ reg then Except.error BindError.addressInUse
  else Except.ok ((address, port) :: reg)

/-- The attribute assignments of `Server.__init__` (net.py lines 44–51),
with the source's default argument values. -/
def Server.mkState (address : String := "localhost") (port : Nat := 9000)
    (message : String := "Message sent") (timeout : ℚ := 1/2) : Server :=
  { address := address, port := port, message := message, timeout := timeout,
    state := SState.bound }

/-- Result of running `Server.__init__`: how many bind attempts were made
(the constructor calls `TCPServer.__init__` exactly once, net.py lines 53–55,
and never retries) and the outcome. -/
structure ConstructResult where
  bindAttempts : Nat
  outcome : Except BindError (Server × Registry)

/-- Embeds `Server.__init__` (net.py lines 44–55): assign the attributes, then
`TCPServer.__init__` with the default `bind_and_activate=True`, which binds the
listening socket immediately — before any start or serve call. -/
def Server.construct (reg : Registry) (address : String := "localhost")
    (port : Nat := 9000) (message : String := "Message sent")
    (timeout : ℚ := 1/2) : ConstructResult :=
  { bindAttempts := 1
    outcome :=
      match server_bind reg address port with
      | Except.error e => Except.error e
      | Except.ok reg' =>
          Except.ok (Server.mkState address port message timeout, reg') }

/-- Embeds `SocketServer.TCPServer.server_close`: releases the listening
socket, freeing the (address, port) pair. -/
def server_close (reg : Registry) (s : Server) : Registry × Server :=
  (reg.erase (s.address, s.port), { s with state := SState.stopped })

/-- Result of one `handle_request()` call: which pending connections were
accepted, the operations performed on each, and the connections still
pending when the call returns. -/
structure HandleResult where
  accepted : List Nat
  traces : List (List ConnOp)
  remaining : List Nat

/-- Embeds `SocketServer.BaseServer.handle_request` as inherited by `Server`
(pending connections are named by `Nat` identifiers, oldest first): it waits
in `select` up to `self.timeout` (set to the constructor argument) for a
pending connection; if one is pending it accepts exactly that one, processes
it via `_handle_request_noblock` (handler `send` then `close`), and returns
without looping; with nothing pending it runs `handle_timeout` (a no-op) and
returns having accepted nothing. -/
def handle_request (s : Server) (pending : List Nat) : HandleResult :=
  match pending with
  | [] => { accepted := [], traces := [], remaining := [] }
  | c :: cs =>
      { accepted := [c], traces := [connTrace s.message], remaining := cs }

/-- Embeds the serve loop handling one accepted connection: a fresh
`ServerHandler` is instantiated for the request, runs `handle`, and the
framework closes the connection socket; the server object is threaded through
unchanged (nothing in `ServerHandler.handle` assigns to the server). -/
def handleConn (s : Server) (_c : Nat) : Server × List ConnOp :=
  (s, connTrace s.message)

/-- The serve loop (`serve_forever`) processing a sequence of accepted
connections in order, threading the server state through each request. -/
def serveSeq (s : Server) : List Nat → Server × List (List ConnOp)
  | [] => (s, [])
  | c :: cs =>
      let r := handleConn s c
      let rest := serveSeq r.1 cs
      (rest.1, r.2 :: rest.2)

/-! ## Scoped acquisition: `Server.__enter__` / `Server.__exit__` -/

/-- Events of the scoped server lifecycle, in the order they occur. -/
inductive LifeEvent where
  /-- `self.thread = Thread(target=self._start); self.thread.start()` —
  `_start` runs `self.serve_forever()` (net.py lines 68–69); `start()`
  returns once the new thread has started. -/
  | startServeThread
  /-- `time.sleep(0.01)` at the end of `__enter__`. -/
  | settleSleep (d : ℚ)
  /-- The body of the `with` block runs. -/
  | bodyRun
  /-- `self.shutdown()` in `__exit__`. -/
  | shutdownCall
  /-- `self.server_close()` in `__exit__`: releases the listening socket. -/
  | closeCall
  /-- `self.thread.join()` in `__exit__`: waits for thread termination. -/
  | joinCall
  deriving DecidableEq

/-- Embeds `Server.__enter__` (net.py lines 57–61). -/
def enterEvents : List LifeEvent :=
  [LifeEvent.startServeThread, LifeEvent.settleSleep (1/100)]

/-- Embeds `Server.__exit__` (net.py lines 63–66): `shutdown()`, then
`server_close()`, then `thread.join()`, unconditionally in that order. -/
def exitEvents : List LifeEvent :=
  [LifeEvent.shutdownCall, LifeEvent.closeCall, LifeEvent.joinCall]

/-- `Server.__exit__` has no `return` statement, so it returns `None`, which
is falsy: the `with` statement never suppresses the body's exception. -/
def exitReturnsTruthy : Bool := false

/-- Python `with` statement semantics applied to `Server`: `__enter__` runs,
then the body, and `__exit__` runs on every exit path, normal or raising.
The result is the body's value (`Except.ok`), or the body's exception
propagated unchanged (`Except.error`) unless `__exit__` returned a truthy
value, in which case the exception is swallowed and the block yields nothing. -/
def runWith {α : Type} (body : Except String α) :
    List LifeEvent × Except String (Option α) :=
  let tr := enterEvents ++ [LifeEvent.bodyRun] ++ exitEvents
  match body with
  | Except.ok a => (tr, Except.ok (some a))
  | Except.error e =>
      (tr, if exitReturnsTruthy then Except.ok none else Except.error e)

/-- Resources owned by a scoped server: the background serving thread and the
listening socket. -/
structure Resources where
  threadAlive : Bool
  socketOpen : Bool
  deriving DecidableEq

/-- Effect of one lifecycle event on the owned resources. -/
def stepRes (r : Resources) : LifeEvent → Resources
  | LifeEvent.startServeThread => { r with threadAlive := true }
  | LifeEvent.joinCall => { r with threadAlive := false }
  | LifeEvent.closeCall => { r with socketOpen := false }
  | _ => r

/-- Resources remaining after a sequence of lifecycle events. -/
def runRes (r : Resources) (es : List LifeEvent) : Resources :=
  es.foldl stepRes r

/-! ## The serve loop's shutdown observation: `serve_forever` / `shutdown`

`Server._start` calls `self.serve_forever()` with no arguments, so
`SocketServer.BaseServer.serve_forever` runs with its default
`poll_interval=0.5`: the loop blocks in `select` for at most `poll_interval`
seconds, then re-checks the `__shutdown_request` flag.  `shutdown()` sets the
flag and waits on the `__is_shut_down` event, which the loop sets only on
exit.  We model the idle loop's checks at times `k * poll_interval`. -/

/-- `poll_interval` default of `SocketServer.BaseServer.serve_forever`,
with which `Server._start` invokes it (no argument is passed). -/
def servePollInterval : ℚ := 1/2

/-- The time of the serve loop's `k`-th shutdown-flag check. -/
def checkTime (k : Nat) : ℚ := k * servePollInterval

/-- The first check index strictly after a shutdown request arriving at time
`t`: the earliest point at which the loop can observe the flag. -/
def loopExitIndex (t : ℚ) : Nat := (⌊t / servePollInterval⌋ + 1).toNat

/-- The time at which the serve loop exits after a shutdown requested at
time `t`. -/
def loopExitTime (t : ℚ) : ℚ := checkTime (loopExitIndex t)

/-- Embeds `SocketServer.BaseServer.shutdown`: sets `__shutdown_request` and
blocks on `__is_shut_down.wait()`, returning exactly when the serve loop has
exited. -/
def shutdownReturnTime (t : ℚ) : ℚ := loopExitTime t

/-- Whether the serve loop is still running (still accepting connections) at
time `u`, given a shutdown requested at time `t`. -/
def loopRunning (t u : ℚ) : Bool := decide (u < loopExitTime t)

/-! ## ReadinessPoller: `wait_server_up` / `wait_server_down`

These functions are exported by `ugly.net` and exercised by
`ugly/net/test.py`, but the module defining them is not in the source tree,
so they are modelled from the specification (spec §4.2).  The network is
abstracted as `reachable : Nat → Bool`, telling whether a connect attempt at
poll tick `k` (time `k * pollInterval`) succeeds. -/

/-- Modelled from the spec: the poller's "fixed short interval
(millisecond-scale, e.g. 1–5 ms) between attempts"; we fix 2 ms. -/
def pollInterval : ℚ := 1/500

/-- Modelled from the spec: the number of probe attempts made before the
cumulative wait exceeds `timeout` — attempts occur at ticks
`0, 1, …` until the elapsed time passes `timeout`. -/
def maxAttempts (timeout : ℚ) : Nat := (⌈timeout / pollInterval⌉).toNat + 1

/-- Modelled from the spec: the only error a poller ever surfaces — a
`Timeout` carrying the address, the port and the elapsed time.  Transient
connection errors have no representation in the result type: they are
swallowed and retried internally. -/
inductive PollError where
  | timeoutErr (address : String) (port : Nat) (elapsed : ℚ)
  deriving DecidableEq

/-- Modelled from the spec: one probe — open a fresh probe socket (tracked in
`openSocks`), attempt the connection, and close the probe socket before
continuing, so it is never retained. -/
def probeAttempt (reachable : Nat → Bool) (k : Nat) (openSocks : List Nat) :
    Bool × List Nat :=
  let opened := k :: openSocks
  (reachable k, opened.erase k)

/-- Modelled from the spec: the `wait_server_up` polling loop — repeatedly
attempt a short-lived connection; stop at the first success, or when the
attempt budget is exhausted.  Returns the tick of the first success (if any)
and the probe sockets still open. -/
def wait_up_from (reachable : Nat → Bool) :
    Nat → Nat → List Nat → Option Nat × List Nat
  | 0, _, socks => (none, socks)
  | fuel + 1, k, socks =>
      let att := probeAttempt reachable k socks
      if att.1 then (some k, att.2)
      else wait_up_from reachable fuel (k + 1) att.2

/-- Result of a poller call: success with the elapsed time, or a `Timeout`
error — plus the probe sockets left open on return. -/
structure PollResult where
  outcome : Except PollError ℚ
  openSocks : List Nat

/-- Modelled from the spec: `wait_server_up(address, port, timeout)` —
repeatedly attempts to open a short-lived connection to (address, port); on
first success, closes the probe socket immediately and returns.  If no
attempt succeeds before `timeout` elapses, fails with a `Timeout` error
carrying address, port, and elapsed time. -/
def wait_server_up (reachable : Nat → Bool) (address : String) (port : Nat)
    (timeout : ℚ) : PollResult :=
  let r := wait_up_from reachable (maxAttempts timeout) 0 []
  match r.1 with
  | some k =>
      { outcome := Except.ok (k * pollInterval), openSocks := r.2 }
  | none =>
      { outcome := Except.error
          (PollError.timeoutErr address port (maxAttempts timeout * pollInterval))
        openSocks := r.2 }

/-- Modelled from the spec: the `wait_server_down` polling loop — repeatedly
attempt a connection; stop at the first attempt that fails. -/
def wait_down_from (reachable : Nat → Bool) :
    Nat → Nat → List Nat → Option Nat × List Nat
  | 0, _, socks => (none, socks)
  | fuel + 1, k, socks =>
      let att := probeAttempt reachable k socks
      if att.1 then wait_down_from reachable fuel (k + 1) att.2
      else (some k, att.2)

/-- Modelled from the spec: `wait_server_down(address, port, timeout)` —
symmetric to `wait_server_up`: repeatedly attempts a connection; returns as
soon as an attempt fails (refused/reset/etc.); fails with `Timeout` if
connections keep succeeding past `timeout`. -/
def wait_server_down (reachable : Nat → Bool) (address : String) (port : Nat)
    (timeout : ℚ) : PollResult :=
  let r := wait_down_from reachable (maxAttempts timeout) 0 []
  match r.1 with
  | some k =>
      { outcome := Except.ok (k * pollInterval), openSocks := r.2 }
  | none =>
      { outcome := Except.error
          (PollError.timeoutErr address port (maxAttempts timeout * pollInterval))
        openSocks := r.2 }

/-- Modelled from the spec: a server that is up until its `shutdown()` +
`close()` complete at time `down` — a connect attempt at tick `k` succeeds
iff its time is before `down`. -/
def reachableUntil (down : ℚ) (k : Nat) : Bool :=
  decide ((k : ℚ) * pollInterval < down)

/-- Modelled from the spec: a subsequent, independent client connection to
the running server — it succeeds and reads the full response iff no probe
socket is left occupying the port's connection slot. -/
def subsequentClient (s : Server) (openSocks : List Nat) :
    Option (List Nat) :=
  if openSocks.isEmpty then some (bytesWritten (connTrace s.message)) else none

/-! ## Helper lemmas -/

/-- The bytes a connection receives are the message bytes then one NUL. -/
theorem bytesWritten_connTrace (message : String) :
    bytesWritten (connTrace message) = strBytes message ++ [0] := by
  simp [connTrace, handle, bytesWritten]

/-- The handler performs no `recv`. -/
theorem readsNothing_connTrace (message : String) :
    readsNothing (connTrace message) = true := by
  simp [connTrace, handle, readsNothing]

/-- The last operation on a connection is `close`. -/
theorem connTrace_last (message : String) :
    (connTrace message).getLast? = some ConnOp.close := by
  simp [connTrace, handle]

/-- The serve loop threads the server through unchanged and answers every
accepted connection with the same trace. -/
theorem serveSeq_eq (s : Server) (cs : List Nat) :
    serveSeq s cs = (s, cs.map fun _ => connTrace s.message) := by
  induction cs with
  | nil => rfl
  | cons c cs ih => simp [serveSeq, handleConn, ih]

/-- A probe never leaves its socket open: the loop returns the socket
inventory it started with. -/
theorem wait_up_from_socks (reachable : Nat → Bool) :
    ∀ fuel k socks, (wait_up_from reachable fuel k socks).2 = socks := by
  intro fuel
  induction fuel with
  | zero => intro k socks; rfl
  | succ n ih =>
      intro k socks
      by_cases h : reachable k = true <;>
        simp [wait_up_from, probeAttempt, h, ih]

/-- If every attempt in the budget fails, the up-loop reports no success. -/
theorem wait_up_from_none (reachable : Nat → Bool) :
    ∀ fuel k socks, (∀ i, i < fuel → reachable (k + i) = false) →
      (wait_up_from reachable fuel k socks).1 = none := by
  intro fuel
  induction fuel with
  | zero => intro k socks _; rfl
  | succ n ih =>
      intro k socks h
      have h0 : reachable k = false := by simpa using h 0 (Nat.succ_pos n)
      simp only [wait_up_from, probeAttempt, List.erase_cons_head, h0]
      simp only [Bool.false_eq_true, if_false]
      exact ih (k + 1) socks fun i hi => by
        have e : k + 1 + i = k + (i + 1) := by omega
        rw [e]
        exact h (i + 1) (by omega)

/-- The up-loop stops at the first successful attempt. -/
theorem wait_up_from_first (reachable : Nat → Bool) :
    ∀ fuel j k socks, j < fuel → reachable (k + j) = true →
      (∀ i, i < j → reachable (k + i) = false) →
      (wait_up_from reachable fuel k socks).1 = some (k + j) := by
  intro fuel
  induction fuel with
  | zero => intro j k socks hj; exact absurd hj (Nat.not_lt_zero j)
  | succ n ih =>
      intro j k socks hj hr hmin
      cases j with
      | zero =>
          have h0 : reachable k = true := by simpa using hr
          simp [wait_up_from, probeAttempt, h0]
      | succ j' =>
          have h0 : reachable k = false := by
            simpa using hmin 0 (Nat.succ_pos j')
          have e : k + 1 + j' = k + (j' + 1) := by omega
          have hrec := ih j' (k + 1) socks (by omega)
            (by rw [e]; exact hr)
            (fun i hi => by
              have e' : k + 1 + i = k + (i + 1) := by omega
              rw [e']
              exact hmin (i + 1) (by omega))
          simp only [wait_up_from, probeAttempt, List.erase_cons_head, h0]
          simp only [Bool.false_eq_true, if_false]
          rw [hrec, e]

/-- Any success reported by the up-loop lies within the attempt budget. -/
theorem wait_up_from_some_bound (reachable : Nat → Bool) :
    ∀ fuel k socks j, (wait_up_from reachable fuel k socks).1 = some j →
      k ≤ j ∧ j < k + fuel := by
  intro fuel
  induction fuel with
  | zero => intro k socks j h; exact absurd h (by simp [wait_up_from])
  | succ n ih =>
      intro k socks j h
      by_cases h0 : reachable k = true
      · simp [wait_up_from, probeAttempt, h0] at h
        omega
      · simp only [wait_up_from, probeAttempt, List.erase_cons_head,
          h0] at h
        simp only [Bool.false_eq_true, if_false] at h
        have := ih (k + 1) socks j h
        omega

/-- The down-loop also returns the socket inventory it started with. -/
theorem wait_down_from_socks (reachable : Nat → Bool) :
    ∀ fuel k socks, (wait_down_from reachable fuel k socks).2 = socks := by
  intro fuel
  induction fuel with
  | zero => intro k socks; rfl
  | succ n ih =>
      intro k socks
      by_cases h : reachable k = true <;>
        simp [wait_down_from, probeAttempt, h, ih]

/-- If every attempt in the budget succeeds, the down-loop reports no
failure. -/
theorem wait_down_from_none (reachable : Nat → Bool) :
    ∀ fuel k socks, (∀ i, i < fuel → reachable (k + i) = true) →
      (wait_down_from reachable fuel k socks).1 = none := by
  intro fuel
  induction fuel with
  | zero => intro k socks _; rfl
  | succ n ih =>
      intro k socks h
      have h0 : reachable k = true := by simpa using h 0 (Nat.succ_pos n)
      simp only [wait_down_from, probeAttempt, List.erase_cons_head, h0,
        if_true]
      exact ih (k + 1) socks fun i hi => by
        have e : k + 1 + i = k + (i + 1) := by omega
        rw [e]
        exact h (i + 1) (by omega)

/-- The down-loop stops at the first failing attempt. -/
theorem wait_down_from_first (reachable : Nat → Bool) :
    ∀ fuel j k socks, j < fuel → reachable (k + j) = false →
      (∀ i, i < j → reachable (k + i) = true) →
      (wait_down_from reachable fuel k socks).1 = some (k + j) := by
  intro fuel
  induction fuel with
  | zero => intro j k socks hj; exact absurd hj (Nat.not_lt_zero j)
  | succ n ih =>
      intro j k socks hj hr hmax
      cases j with
      | zero =>
          have h0 : reachable k = false := by simpa using hr
          simp [wait_down_from, probeAttempt, h0]
      | succ j' =>
          have h0 : reachable k = true := by
            simpa using hmax 0 (Nat.succ_pos j')
          have e : k + 1 + j' = k + (j' + 1) := by omega
          have hrec := ih j' (k + 1) socks (by omega)
            (by rw [e]; exact hr)
            (fun i hi => by
              have e' : k + 1 + i = k + (i + 1) := by omega
              rw [e']
              exact hmax (i + 1) (by omega))
          simp only [wait_down_from, probeAttempt, List.erase_cons_head, h0,
            if_true]
          rw [hrec, e]

/-- The attempt budget always covers the timeout: the elapsed time of a
full sweep is at least `timeout`, so the poller never gives up early, and
being fuel-bounded it never runs forever either. -/
theorem le_maxAttempts_mul (timeout : ℚ) :
    timeout ≤ (maxAttempts timeout : ℚ) * pollInterval := by
  have hP : (0 : ℚ) < pollInterval := by norm_num [pollInterval]
  rcases le_or_lt timeout 0 with h | h
  · have : (0 : ℚ) ≤ (maxAttempts timeout : ℚ) * pollInterval :=
      mul_nonneg (Nat.cast_nonneg _) hP.le
    linarith
  · have hq : (0 : ℚ) ≤ timeout / pollInterval := by positivity
    have hceil : (0 : ℤ) ≤ ⌈timeout / pollInterval⌉ := Int.ceil_nonneg hq
    have hcast : ((⌈timeout / pollInterval⌉.toNat : ℕ) : ℚ)
        = ((⌈timeout / pollInterval⌉ : ℤ) : ℚ) := by
      exact_mod_cast congrArg Int.cast (Int.toNat_of_nonneg hceil)
    have hle : timeout / pollInterval ≤ ((⌈timeout / pollInterval⌉ : ℤ) : ℚ) :=
      Int.le_ceil _
    have heq : timeout / pollInterval * pollInterval = timeout := by
      field_simp
    calc timeout = timeout / pollInterval * pollInterval := heq.symm
      _ ≤ ((⌈timeout / pollInterval⌉ : ℤ) : ℚ) * pollInterval :=
          (mul_le_mul_right hP).mpr hle
      _ ≤ (((⌈timeout / pollInterval⌉ : ℤ) : ℚ) + 1) * pollInterval := by
          nlinarith
      _ = (maxAttempts timeout : ℚ) * pollInterval := by
          rw [maxAttempts]
          push_cast [hcast]
          ring

/-- Both branches of `wait_server_up` leave no probe socket open. -/
theorem wait_server_up_openSocks (reachable : Nat → Bool) (address : String)
    (port : Nat) (timeout : ℚ) :
    (wait_server_up reachable address port timeout).openSocks = [] := by
  unfold wait_server_up
  cases h : (wait_up_from reachable (maxAttempts timeout) 0 []).1 <;>
    simp [h, wait_up_from_socks]

/-- Both branches of `wait_server_down` leave no probe socket open. -/
theorem wait_server_down_openSocks (reachable : Nat → Bool)
    (address : String) (port : Nat) (timeout : ℚ) :
    (wait_server_down reachable address port timeout).openSocks = [] := by
  unfold wait_server_down
  cases h : (wait_down_from reachable (maxAttempts timeout) 0 []).1 <;>
    simp [h, wait_down_from_socks]

/-! ## Claim theorems -/

/-- **C1**: for every accepted connection, the server writes exactly the
configured `message` bytes followed by one NUL byte (0x00), then closes that
connection, and never reads anything from the client; in particular a server
with `message="Server is up"` yields exactly the bytes `"Server is up\x00"`
to every client that connects. -/
theorem server_response_is_message_then_nul :
    (∀ message : String,
      bytesWritten (connTrace message) = strBytes message ++ [0] ∧
      readsNothing (connTrace message) = true ∧
      (connTrace message).getLast? = some ConnOp.close) ∧
    bytesWritten (connTrace "Server is up") = strBytes "Server is up" ++ [0] := by
  refine ⟨fun message => ⟨?_, ?_, ?_⟩, ?_⟩
  · exact bytesWritten_connTrace message
  · exact readsNothing_connTrace message
  · exact connTrace_last message
  · exact bytesWritten_connTrace "Server is up"

/-- **C7**: every call to `handle_request()` on a bound server accepts
exactly one pending connection, writes the `message` followed by a single
NUL terminator byte to it, closes that connection, and returns without
looping to accept further connections (the rest of the pending queue is
untouched). -/
theorem handle_request_accepts_exactly_one (s : Server) (c : Nat)
    (cs : List Nat) :
    (handle_request s (c :: cs)).accepted = [c] ∧
    (handle_request s (c :: cs)).traces = [connTrace s.message] ∧
    bytesWritten (connTrace s.message) = strBytes s.message ++ [0] ∧
    (connTrace s.message).getLast? = some ConnOp.close ∧
    (handle_request s (c :: cs)).remaining = cs := by
  exact ⟨rfl, rfl, bytesWritten_connTrace s.message, connTrace_last s.message,
    rfl⟩

/-- **C8**: a server constructed with no arguments uses the defaults
`address="localhost"`, `port=9000`, `message="Message sent"`,
`timeout=0.5`, and the constructor binds the listening socket to
(address, port) immediately: the construction outcome already registers the
pair and the returned server is in the `bound` state, before any start or
serve call. -/
theorem default_construction_binds_immediately :
    Server.mkState.address = "localhost" ∧
    Server.mkState.port = 9000 ∧
    Server.mkState.message = "Message sent" ∧
    Server.mkState.timeout = 1/2 ∧
    Server.mkState.state = SState.bound ∧
    (Server.construct []).outcome
      = Except.ok (Server.mkState, [("localhost", 9000)]) ∧
    (Server.construct []).bindAttempts = 1 := by
  refine ⟨rfl, rfl, rfl, rfl, rfl, ?_, rfl⟩
  simp [Server.construct, server_bind]

/-- **C9**: for every running server with a fixed `message`, any two
sequential independent client connections each receive the identical full
response — the `message` bytes followed by the NUL terminator — and no
mutable state carried over from one handled request changes the response to
the next (the server threads through the serve loop unchanged). -/
theorem sequential_clients_get_identical_responses (s : Server)
    (cs : List Nat) :
    (serveSeq s cs).1 = s ∧
    (serveSeq s cs).2 = cs.map (fun _ => connTrace s.message) ∧
    ∀ i j : Fin (serveSeq s cs).2.length,
      (serveSeq s cs).2.get i = (serveSeq s cs).2.get j ∧
      bytesWritten ((serveSeq s cs).2.get i) = strBytes s.message ++ [0] := by
  refine ⟨by rw [serveSeq_eq], by rw [serveSeq_eq], fun i j => ⟨?_, ?_⟩⟩
  · have hi := List.get_of_eq (congrArg Prod.snd (serveSeq_eq s cs)) i
    have hj := List.get_of_eq (congrArg Prod.snd (serveSeq_eq s cs)) j
    rw [hi, hj, List.get_map, List.get_map]
  · have hi := List.get_of_eq (congrArg Prod.snd (serveSeq_eq s cs)) i
    rw [hi, List.get_map, bytesWritten_connTrace]

/-- **C6**: constructing a server on an (address, port) pair already bound
fails immediately with an address-in-use error, the bind is attempted
exactly once (never retried internally), and a successful construction on a
duplicate-free registry keeps the registry duplicate-free with exactly one
listening socket on the pair. -/
theorem at_most_one_listener_per_pair (reg : Registry) (address : String)
    (port : Nat) (message : String) (timeout : ℚ) :
    ((address, port) ∈ reg →
      (Server.construct reg address port message timeout).outcome
        = Except.error BindError.addressInUse) ∧
    (Server.construct reg address port message timeout).bindAttempts = 1 ∧
    (reg.Nodup → ∀ s reg',
      (Server.construct reg address port message timeout).outcome
        = Except.ok (s, reg') →
      reg'.Nodup ∧ reg'.count (address, port) = 1) := by
  refine ⟨fun hmem => ?_, rfl, fun hnd s reg' hok => ?_⟩
  · simp [Server.construct, server_bind, hmem]
  · by_cases hmem : (address, port) ∈ reg
    · simp [Server.construct, server_bind, hmem] at hok
    · simp [Server.construct, server_bind, hmem] at hok
      obtain ⟨-, hreg⟩ := hok
      subst hreg
      refine ⟨List.nodup_cons.mpr ⟨hmem, hnd⟩, ?_⟩
      rw [List.count_cons_self, List.count_eq_zero.mpr hmem]

/-- Witness for `at_most_one_listener_per_pair` at concrete inputs: a second
bind to an occupied pair fails, and construction on the empty registry leaves
exactly one listener. -/
theorem at_most_one_listener_per_pair_witness :
    (Server.construct [("localhost", 9000)] "localhost" 9000 "Message sent"
        (1/2)).outcome = Except.error BindError.addressInUse ∧
    ([("localhost", 9000)] : Registry).Nodup ∧
    [("localhost", 9000)].count (("localhost", 9000) : String × Nat) = 1 :=
  ⟨(at_most_one_listener_per_pair [("localhost", 9000)] "localhost" 9000
      "Message sent" (1/2)).1 (by simp),
    ((at_most_one_listener_per_pair [] "localhost" 9000 "Message sent"
      (1/2)).2.2 List.nodup_nil Server.mkState [("localhost", 9000)]
      (by simp [Server.construct, server_bind])).1,
    ((at_most_one_listener_per_pair [] "localhost" 9000 "Message sent"
      (1/2)).2.2 List.nodup_nil Server.mkState [("localhost", 9000)]
      (by simp [Server.construct, server_bind])).2⟩

/-- **C4**: entering the scope starts a background thread running
`serve_forever()` and returns once that thread has started; exiting calls
`shutdown()`, then releases the listening socket, then joins the background
thread, on every exit path — including when the scope body raises — so
starting from a bound server (socket open, no thread) neither a live thread
nor an open listening socket survives the scope. -/
theorem scoped_acquisition_releases_resources (α : Type)
    (body : Except String α) :
    (runWith body).1
      = [LifeEvent.startServeThread, LifeEvent.settleSleep (1/100),
         LifeEvent.bodyRun,
         LifeEvent.shutdownCall, LifeEvent.closeCall, LifeEvent.joinCall] ∧
    runRes { threadAlive := false, socketOpen := true } (runWith body).1
      = { threadAlive := false, socketOpen := false } := by
  cases body <;>
    exact ⟨rfl, rfl⟩

/-- **C10**: the scoped-exit handler never suppresses an exception raised by
the scope body — `Server.__exit__` has no return statement, hence returns
`None` (falsy) for every exception, so after the full exit sequence
(shutdown, close, join) has run, the body's exception still propagates
unchanged to the caller, while a normally-completing body yields its value. -/
theorem scope_exit_propagates_exceptions (α : Type) (a : α) (e : String) :
    exitReturnsTruthy = false ∧
    (runWith (Except.error e : Except String α)).2 = Except.error e ∧
    (runWith (Except.error e : Except String α)).1
      = enterEvents ++ [LifeEvent.bodyRun] ++ exitEvents ∧
    (runWith (Except.ok a)).2 = Except.ok (some a) := by
  exact ⟨rfl, rfl, rfl, rfl⟩

/-- **C5** (amended): `shutdown()` called from another thread returns exactly
when the serving loop has exited — after which the loop no longer runs, so no
new connections are accepted — and the loop observes a shutdown request made
at time `t ≥ 0` within `serve_forever`'s fixed 0.5-second poll interval
(which equals the *default* `timeout` constructor argument, though not an
arbitrary declared one). -/
theorem shutdown_synchronizes_within_poll_interval (t : ℚ) (ht : 0 ≤ t) :
    shutdownReturnTime t = loopExitTime t ∧
    (∀ u : ℚ, shutdownReturnTime t ≤ u → loopRunning t u = false) ∧
    t < loopExitTime t ∧
    loopExitTime t ≤ t + servePollInterval ∧
    servePollInterval = Server.mkState.timeout := by
  have hP : (0 : ℚ) < servePollInterval := by norm_num [servePollInterval]
  have hdiv : (0 : ℚ) ≤ t / servePollInterval := div_nonneg ht hP.le
  have hfloor : (0 : ℤ) ≤ ⌊t / servePollInterval⌋ := Int.floor_nonneg.mpr hdiv
  have hcast :
      ((loopExitIndex t : ℤ) : ℚ) = (⌊t / servePollInterval⌋ : ℚ) + 1 := by
    rw [loopExitIndex, Int.toNat_of_nonneg (by omega)]
    push_cast
    ring
  have hcast' : ((loopExitIndex t : ℕ) : ℚ)
      = (⌊t / servePollInterval⌋ : ℚ) + 1 := by
    exact_mod_cast hcast
  refine ⟨rfl, ?_, ?_, ?_, by norm_num [servePollInterval, Server.mkState]⟩
  · intro u hu
    rw [shutdownReturnTime] at hu
    simp only [loopRunning, decide_eq_false_iff_not, not_lt]
    exact hu
  · rw [loopExitTime, checkTime, hcast']
    have h1 : t / servePollInterval < (⌊t / servePollInterval⌋ : ℚ) + 1 :=
      Int.lt_floor_add_one _
    calc t = t / servePollInterval * servePollInterval := by
            field_simp
      _ < ((⌊t / servePollInterval⌋ : ℚ) + 1) * servePollInterval :=
            (mul_lt_mul_right hP).mpr h1
  · rw [loopExitTime, checkTime, hcast']
    have h1 : (⌊t / servePollInterval⌋ : ℚ) ≤ t / servePollInterval :=
      Int.floor_le _
    have h2 : ((⌊t / servePollInterval⌋ : ℚ) + 1) * servePollInterval
        ≤ (t / servePollInterval + 1) * servePollInterval :=
      (mul_le_mul_right hP).mpr (by linarith)
    calc ((⌊t / servePollInterval⌋ : ℚ) + 1) * servePollInterval
        ≤ (t / servePollInterval + 1) * servePollInterval := h2
      _ = t + servePollInterval := by field_simp

/-- Witness for `shutdown_synchronizes_within_poll_interval` at `t = 1/100`:
the loop has stopped by time `1/2` and the request is observed after `t`. -/
theorem shutdown_synchronizes_witness :
    loopRunning (1/100) (1/2) = false ∧ (1/100 : ℚ) < loopExitTime (1/100) :=
  ⟨(shutdown_synchronizes_within_poll_interval (1/100) (by norm_num)).2.1
      (1/2) (by norm_num [shutdownReturnTime, loopExitTime, loopExitIndex,
        checkTime, servePollInterval]),
    (shutdown_synchronizes_within_poll_interval (1/100) (by norm_num)).2.2.1⟩

/-- **C2**: `wait_server_up(address, port, timeout)` polls with short-lived
probes whose sockets are all closed on return (so a subsequent independent
client connection still succeeds and reads the full response); it returns as
soon as a connect succeeds — at the first reachable tick; if no attempt
succeeds within the budget it fails with a single `Timeout` error carrying
the address, the port and an elapsed time of at least `timeout`; its result
is bounded (never an indefinite hang) and is always either a success or that
one `Timeout` — individual transient connection errors are never surfaced. -/
theorem wait_server_up_spec (reachable : Nat → Bool) (address : String)
    (port : Nat) (timeout : ℚ) :
    (wait_server_up reachable address port timeout).openSocks = [] ∧
    (∀ s : Server,
      subsequentClient s
          (wait_server_up reachable address port timeout).openSocks
        = some (strBytes s.message ++ [0])) ∧
    (∀ j, j < maxAttempts timeout → reachable j = true →
      (∀ i, i < j → reachable i = false) →
      (wait_server_up reachable address port timeout).outcome
        = Except.ok ((j : ℚ) * pollInterval)) ∧
    ((∀ i, i < maxAttempts timeout → reachable i = false) →
      (wait_server_up reachable address port timeout).outcome
        = Except.error (PollError.timeoutErr address port
            ((maxAttempts timeout : ℚ) * pollInterval))) ∧
    timeout ≤ (maxAttempts timeout : ℚ) * pollInterval ∧
    (∀ q, (wait_server_up reachable address port timeout).outcome
        = Except.ok q →
      0 ≤ q ∧ q ≤ (maxAttempts timeout : ℚ) * pollInterval) ∧
    ((∃ q, (wait_server_up reachable address port timeout).outcome
        = Except.ok q) ∨
      (wait_server_up reachable address port timeout).outcome
        = Except.error (PollError.timeoutErr address port
            ((maxAttempts timeout : ℚ) * pollInterval))) := by
  have hP : (0 : ℚ) < pollInterval := by norm_num [pollInterval]
  have hsocks := wait_server_up_openSocks reachable address port timeout
  refine ⟨hsocks, ?_, ?_, ?_, le_maxAttempts_mul timeout, ?_, ?_⟩
  · intro s
    rw [hsocks]
    simp [subsequentClient, bytesWritten_connTrace]
  · intro j hj hr hmin
    have h1 : (wait_up_from reachable (maxAttempts timeout) 0 []).1
        = some j := by
      have := wait_up_from_first reachable (maxAttempts timeout) j 0 [] hj
        (by simpa using hr) (fun i hi => by simpa using hmin i hi)
      simpa using this
    unfold wait_server_up
    simp [h1]
  · intro hall
    have h1 : (wait_up_from reachable (maxAttempts timeout) 0 []).1
        = none :=
      wait_up_from_none reachable (maxAttempts timeout) 0 []
        (fun i hi => by simpa using hall i hi)
    unfold wait_server_up
    simp [h1]
  · intro q hq
    cases h1 : (wait_up_from reachable (maxAttempts timeout) 0 []).1 with
    | none =>
        unfold wait_server_up at hq
        simp [h1] at hq
    | some k =>
        unfold wait_server_up at hq
        simp [h1] at hq
        obtain ⟨-, hk⟩ := wait_up_from_some_bound reachable
          (maxAttempts timeout) 0 [] k h1
        constructor
        · rw [← hq]
          positivity
        · rw [← hq]
          have : (k : ℚ) ≤ (maxAttempts timeout : ℚ) := by
            exact_mod_cast Nat.le_of_lt (by simpa using hk)
          exact mul_le_mul_of_nonneg_right this hP.le
  · cases h1 : (wait_up_from reachable (maxAttempts timeout) 0 []).1 with
    | none =>
        right
        unfold wait_server_up
        simp [h1]
    | some k =>
        left
        refine ⟨(k : ℚ) * pollInterval, ?_⟩
        unfold wait_server_up
        simp [h1]

/-- Witness for `wait_server_up_spec`: against a server that becomes
reachable at tick 3, the poller succeeds at exactly tick 3; against a server
that never answers, it fails with the single `Timeout` error. -/
theorem wait_server_up_spec_witness :
    (wait_server_up (fun k => decide (3 ≤ k)) "localhost" 9000
        (1/10)).outcome = Except.ok ((3 : ℚ) * pollInterval) ∧
    (wait_server_up (fun _ => false) "localhost" 9000 (1/10)).outcome
      = Except.error (PollError.timeoutErr "localhost" 9000
          ((maxAttempts (1/10) : ℚ) * pollInterval)) :=
  ⟨(wait_server_up_spec (fun k => decide (3 ≤ k)) "localhost" 9000
      (1/10)).2.2.1 3 (by norm_num [maxAttempts, pollInterval]; decide)
      (by decide) (by decide),
    (wait_server_up_spec (fun _ => false) "localhost" 9000
      (1/10)).2.2.2.1 (fun i _ => rfl)⟩

/-- **C3**: `wait_server_down(address, port, timeout)` keeps polling while
connection attempts succeed, returns at the first attempt that fails, and
fails with the single `Timeout` error if connections keep succeeding through
the whole budget (whose elapsed time is at least `timeout`); and against a
server whose shutdown and close complete at time `down ≤ timeout`, it
returns successfully with a measured elapsed time of at least `down` — never
shorter than the real shutdown delay. -/
theorem wait_server_down_spec (reachable : Nat → Bool) (address : String)
    (port : Nat) (timeout : ℚ) :
    (wait_server_down reachable address port timeout).openSocks = [] ∧
    (∀ j, j < maxAttempts timeout → reachable j = false →
      (∀ i, i < j → reachable i = true) →
      (wait_server_down reachable address port timeout).outcome
        = Except.ok ((j : ℚ) * pollInterval)) ∧
    ((∀ i, i < maxAttempts timeout → reachable i = true) →
      (wait_server_down reachable address port timeout).outcome
        = Except.error (PollError.timeoutErr address port
            ((maxAttempts timeout : ℚ) * pollInterval))) ∧
    timeout ≤ (maxAttempts timeout : ℚ) * pollInterval ∧
    (∀ down : ℚ, 0 ≤ down → down ≤ timeout →
      (wait_server_down (reachableUntil down) address port timeout).outcome
        = Except.ok ((((⌈down / pollInterval⌉).toNat : ℕ) : ℚ)
            * pollInterval) ∧
      down ≤ (((⌈down / pollInterval⌉).toNat : ℕ) : ℚ) * pollInterval) := by
  have hP : (0 : ℚ) < pollInterval := by norm_num [pollInterval]
  refine ⟨wait_server_down_openSocks reachable address port timeout,
    ?_, ?_, le_maxAttempts_mul timeout, ?_⟩
  · intro j hj hr hmax
    have h1 : (wait_down_from reachable (maxAttempts timeout) 0 []).1
        = some j := by
      have := wait_down_from_first reachable (maxAttempts timeout) j 0 [] hj
        (by simpa using hr) (fun i hi => by simpa using hmax i hi)
      simpa using this
    unfold wait_server_down
    simp [h1]
  · intro hall
    have h1 : (wait_down_from reachable (maxAttempts timeout) 0 []).1
        = none :=
      wait_down_from_none reachable (maxAttempts timeout) 0 []
        (fun i hi => by simpa using hall i hi)
    unfold wait_server_down
    simp [h1]
  · intro down h0 hT
    have hq0 : (0 : ℚ) ≤ down / pollInterval := by positivity
    have hceil0 : (0 : ℤ) ≤ ⌈down / pollInterval⌉ := Int.ceil_nonneg hq0
    have hcast : (((⌈down / pollInterval⌉).toNat : ℕ) : ℚ)
        = ((⌈down / pollInterval⌉ : ℤ) : ℚ) := by
      exact_mod_cast congrArg Int.cast (Int.toNat_of_nonneg hceil0)
    have hdelay : down ≤ (((⌈down / pollInterval⌉).toNat : ℕ) : ℚ)
        * pollInterval := by
      rw [hcast]
      have hle : down / pollInterval
          ≤ ((⌈down / pollInterval⌉ : ℤ) : ℚ) := Int.le_ceil _
      calc down = down / pollInterval * pollInterval := by field_simp
        _ ≤ ((⌈down / pollInterval⌉ : ℤ) : ℚ) * pollInterval :=
            (mul_le_mul_right hP).mpr hle
    have hmono : ⌈down / pollInterval⌉ ≤ ⌈timeout / pollInterval⌉ :=
      Int.ceil_mono ((div_le_div_iff_of_pos_right hP).mpr hT)
    have hlt : (⌈down / pollInterval⌉).toNat < maxAttempts timeout := by
      rw [maxAttempts]
      have := Int.toNat_le_toNat hmono
      omega
    have hfalse : reachableUntil down ((⌈down / pollInterval⌉).toNat)
        = false := by
      simp only [reachableUntil, decide_eq_false_iff_not, not_lt, hcast]
      exact hdelay.trans_eq (by rw [hcast])
    have htrue : ∀ i, i < (⌈down / pollInterval⌉).toNat →
        reachableUntil down i = true := by
      intro i hi
      simp only [reachableUntil, decide_eq_true_eq]
      have hiz : (i : ℤ) < ⌈down / pollInterval⌉ := Int.lt_toNat.mp hi
      have : (i : ℚ) < down / pollInterval := by
        exact_mod_cast Int.lt_ceil.mp hiz
      calc (i : ℚ) * pollInterval < down / pollInterval * pollInterval :=
            (mul_lt_mul_right hP).mpr this
        _ = down := by field_simp
    have h1 : (wait_down_from (reachableUntil down) (maxAttempts timeout)
        0 []).1 = some ((⌈down / pollInterval⌉).toNat) := by
      have := wait_down_from_first (reachableUntil down)
        (maxAttempts timeout) ((⌈down / pollInterval⌉).toNat) 0 [] hlt
        (by simpa using hfalse) (fun i hi => by simpa using htrue i hi)
      simpa using this
    constructor
    · unfold wait_server_down
      simp [h1]
    · exact hdelay

/-- Witness for `wait_server_down_spec`: against a server whose shutdown
completes at time `1/100`, the poller returns only at or after `1/100`. -/
theorem wait_server_down_spec_witness :
    (wait_server_down (reachableUntil (1/100)) "localhost" 9000
        (1/10)).outcome
      = Except.ok ((((⌈(1/100 : ℚ) / pollInterval⌉).toNat : ℕ) : ℚ)
          * pollInterval) ∧
    (1/100 : ℚ) ≤ (((⌈(1/100 : ℚ) / pollInterval⌉).toNat : ℕ) : ℚ)
        * pollInterval :=
  (wait_server_down_spec (reachableUntil (1/100)) "localhost" 9000
    (1/10)).2.2.2.2 (1/100) (by norm_num) (by norm_num)

/-- Counterexample to **C5** as stated: for a server declared with
`timeout=0.1`, a shutdown requested at time `1/100` is only observed at the
next 0.5-second poll tick, `49/100` seconds later — more than the declared
`timeout` — because `Server._start` invokes `serve_forever()` with its
default `poll_interval=0.5` regardless of the `timeout` attribute. -/
theorem shutdown_not_observed_within_declared_timeout :
    (Server.mkState "localhost" 9000 "Message sent" (1/10)).timeout = 1/10 ∧
    shutdownReturnTime (1/100) - 1/100
      > (Server.mkState "localhost" 9000 "Message sent" (1/10)).timeout := by
  constructor
  · rfl
  · norm_num [shutdownReturnTime, loopExitTime, loopExitIndex, checkTime,
      servePollInterval, Server.mkState]

end UglyNet




